import Mathlib

/-!
Verification of the dancehall-bot persistence core.

Shallow embedding of the Python sources:
- src/storage.py     (URL normalizer, videos schema lifecycle, catalog store)
- src/storage_users.py (users table)
- src/user_guards.py (role resolver)
- src/admin_handlers.py (access-window extension arithmetic)
- src/bot.py         (title validation in the add-video flow)

Python strings are modelled as `List Char`, SQL tables as Lean lists /
finsets, SQLite errors and Python exceptions as `Except`, and machine
time as an `Int` parameter.
-/

/-- Characters stripped by Python str.strip(): space, tab, newline,
carriage return, vertical tab, form feed. -/
def pyWhitespace (c : Char) : Bool :=
  c == ' ' || c == '\t' || c == '\n' || c == '\r' || c == '\x0b' || c == '\x0c'

/-- Python str.strip(): drop leading and trailing whitespace. -/
def pyStrip (s : List Char) : List Char :=
  ((s.dropWhile pyWhitespace).reverse.dropWhile pyWhitespace).reverse

/-- Python str.lower() (basic latin, as used by the repository's keys). -/
def pyLower (s : List Char) : List Char := s.map Char.toLower

/-- The scheme literal http:// matched by the regex ^https?:// . -/
def schemeHttp : List Char := "http://".toList

/-- The scheme literal https:// matched by the regex ^https?:// . -/
def schemeHttps : List Char := "https://".toList

/-- re.sub applied to an anchored pattern: remove one leading scheme. -/
def stripScheme (s : List Char) : List Char :=
  if s.take 8 = schemeHttps then s.drop 8
  else if s.take 7 = schemeHttp then s.drop 7
  else s

/-- Python str.rstrip("/"): drop every trailing slash. -/
def rstripSlash (s : List Char) : List Char :=
  (s.reverse.dropWhile (fun c => c == '/')).reverse

/-- normalize_url from src/storage.py lines 21-26.
`none` models Python None; `some []` models the empty string. -/
def normalize_url : Option (List Char) → Option (List Char)
  | none => none
  | some url =>
    if url.isEmpty then none
    else some (rstripSlash (stripScheme (pyLower (pyStrip url))))

/-! ## Access window store (src/storage_users.py) -/

/-- One row of the users table. -/
structure UserRow where
  telegram_id : Int
  username : Option (List Char)
  full_name : Option (List Char)
  expires_at : Option Int
  is_banned : Int
  note : Option (List Char)
  created_at : Int
  updated_at : Int
deriving DecidableEq

/-- SECONDS_IN_DAY from src/storage_users.py. -/
def SECONDS_IN_DAY : Int := 86400

/-- get_user: SELECT * FROM users WHERE telegram_id = ? (primary key). -/
def get_user (users : List UserRow) (telegram_id : Int) : Option UserRow :=
  users.find? (fun r => r.telegram_id == telegram_id)

/-- upsert_user from src/storage_users.py: INSERT ... ON CONFLICT(telegram_id)
DO UPDATE, with note = COALESCE(excluded.note, users.note). `ts` models
int(time.time()). -/
def upsert_user (users : List UserRow) (telegram_id : Int)
    (username full_name : Option (List Char)) (expires_at : Option Int)
    (is_banned : Int) (note : Option (List Char)) (ts : Int) : List UserRow :=
  if users.any (fun r => r.telegram_id == telegram_id) then
    users.map (fun r =>
      if r.telegram_id == telegram_id then
        { r with
          username := username
          full_name := full_name
          expires_at := expires_at
          is_banned := is_banned
          note := (match note with | some n => some n | none => r.note)
          updated_at := ts }
      else r)
  else
    users ++ [{ telegram_id := telegram_id
                username := username
                full_name := full_name
                expires_at := expires_at
                is_banned := is_banned
                note := note
                created_at := ts
                updated_at := ts }]

/-- update_expiration from src/storage_users.py. -/
def update_expiration (users : List UserRow) (telegram_id : Int)
    (expires_at : Option Int) (ts : Int) : List UserRow :=
  users.map (fun r =>
    if r.telegram_id == telegram_id then
      { r with expires_at := expires_at, updated_at := ts }
    else r)

/-! ## Role resolver (src/user_guards.py, src/access_control.py) -/

/-- UserRole from src/access_control.py. -/
inductive UserRole where
  | admin | member | expired | banned | unknown
deriving DecidableEq

/-- resolve_role from src/user_guards.py lines 17-30, with `now` standing
for now_ts() and the users table standing for users_storage. -/
def resolve_role (user_id : Option Int) (admin_ids : Finset Int)
    (users : List UserRow) (now : Int) : UserRole :=
  match user_id with
  | none => .unknown
  | some uid =>
    if uid ∈ admin_ids then .admin
    else
      match get_user users uid with
      | none => .unknown
      | some row =>
        if row.is_banned = 1 then .banned
        else
          match row.expires_at with
          | some e => if e ≤ now then .expired else .member
          | none => .member

/-! ## Access extension (src/admin_handlers.py edit_plus, lines 179-196) -/

/-- The base computed at src/admin_handlers.py line 187:
now if the record is missing, has no expiry, or the expiry is past;
otherwise the stored expiry. -/
def edit_plus_base (row : Option UserRow) (now : Int) : Int :=
  match row with
  | none => now
  | some r =>
    match r.expires_at with
    | none => now
    | some e => if e < now then now else e

/-- edit_plus storage effect: admins are refused; otherwise the record's
expiry becomes base + days * SECONDS_IN_DAY, via update_expiration when a
record exists and upsert_user otherwise.  Returns the new store and the
announced expiry (none when refused). -/
def edit_plus (users : List UserRow) (target_id : Int)
    (username full_name : Option (List Char)) (admin_ids : Finset Int)
    (now days : Int) : List UserRow × Option Int :=
  if target_id ∈ admin_ids then (users, none)
  else
    let row := get_user users target_id
    let new_exp := edit_plus_base row now + days * SECONDS_IN_DAY
    match row with
    | some _ => (update_expiration users target_id (some new_exp) now, some new_exp)
    | none =>
      (upsert_user users target_id username full_name (some new_exp) 0 none now,
       some new_exp)

/-! ## Favorites (src/storage.py toggle_favorite / is_favorite) -/

/-- toggle_favorite from src/storage.py lines 484-494: the favorites table
has primary key (user_id, video_id), so it is a finite set of pairs.
Returns the new table and the reported new state. -/
def toggle_favorite (favs : Finset (Int × Int)) (user_id video_id : Int) :
    Finset (Int × Int) × Bool :=
  if (user_id, video_id) ∈ favs then (favs.erase (user_id, video_id), false)
  else (insert (user_id, video_id) favs, true)

/-- is_favorite from src/storage.py lines 496-502. -/
def is_favorite (favs : Finset (Int × Int)) (user_id video_id : Int) : Bool :=
  decide ((user_id, video_id) ∈ favs)

/-- N consecutive toggles of the same pair. -/
def toggle_favorite_iter (favs : Finset (Int × Int)) (user_id video_id : Int) :
    Nat → Finset (Int × Int)
  | 0 => favs
  | n + 1 => (toggle_favorite (toggle_favorite_iter favs user_id video_id n) user_id video_id).1

/-! ## Catalog store rows (videos table of src/storage.py) -/

/-- One row of the videos table.  In the target layout needs_refresh is
NOT NULL DEFAULT 0; a legacy layout may hold NULL there, hence Option. -/
structure VideoRow where
  id : Int
  title : List Char
  file_id : Option (List Char)
  file_unique_id : Option (List Char)
  source_url : Option (List Char)
  source_url_normalized : Option (List Char)
  created_at : Option (List Char)
  storage_chat_id : Option Int
  storage_message_id : Option Int
  needs_refresh : Option Int
  vault_chat_id : Option Int
  vault_message_id : Option Int
deriving DecidableEq

/-- Conflict on the UNIQUE source_url_normalized column.  SQLite treats
NULL index entries as pairwise distinct. -/
def urlConflict (r s : VideoRow) : Bool :=
  match r.source_url_normalized, s.source_url_normalized with
  | some a, some b => a == b
  | _, _ => false

/-- Conflict on the UNIQUE (vault_chat_id, vault_message_id) index:
only rows with both columns non-NULL can collide. -/
def vaultConflict (r s : VideoRow) : Bool :=
  match r.vault_chat_id, r.vault_message_id, s.vault_chat_id, s.vault_message_id with
  | some c1, some m1, some c2, some m2 => c1 == c2 && m1 == m2
  | _, _, _, _ => false

/-- A new row collides with an existing one on the target table's
constraints: primary key id, unique normalized URL, unique vault pair. -/
def rowConflict (r s : VideoRow) : Bool :=
  r.id == s.id || urlConflict r s || vaultConflict r s

/-! ## Catalog store state and operations (src/storage.py) -/

/-- The catalog store: videos, categories (id, name with UNIQUE name),
and the video_categories association table. -/
structure CatalogStore where
  rows : List VideoRow
  next_id : Int
  categories : List (Int × List Char)
  next_category_id : Int
  video_categories : List (Int × Int)
deriving DecidableEq

/-- Error taxonomy for catalog operations. -/
inductive StoreError where
  | validationError
  | integrityViolation
deriving DecidableEq

/-- _ensure_entity from src/storage.py lines 439-442: INSERT OR IGNORE a
stripped name into categories, then SELECT its id. -/
def ensure_entity (st : CatalogStore) (name : List Char) : CatalogStore × Int :=
  let nm := pyStrip name
  match st.categories.find? (fun p => p.2 == nm) with
  | some p => (st, p.1)
  | none =>
    ({ st with
       categories := st.categories ++ [(st.next_category_id, nm)]
       next_category_id := st.next_category_id + 1 }, st.next_category_id)

/-- One iteration of the loop in _set_categories (src/storage.py 430-437):
ensure the category exists, INSERT OR IGNORE the association. -/
def set_categories_step (video_id : Int) (acc : CatalogStore) (c : List Char) :
    CatalogStore :=
  if (video_id, (ensure_entity acc c).2) ∈ (ensure_entity acc c).1.video_categories then
    (ensure_entity acc c).1
  else
    { (ensure_entity acc c).1 with
      video_categories :=
        (ensure_entity acc c).1.video_categories ++ [(video_id, (ensure_entity acc c).2)] }

/-- _set_categories from src/storage.py lines 430-437: DELETE the video's
associations, then re-insert one per requested category name. -/
def set_categories (st : CatalogStore) (video_id : Int)
    (cats : List (List Char)) : CatalogStore :=
  cats.foldl (set_categories_step video_id)
    { st with video_categories :=
        st.video_categories.filter (fun p => !(p.1 == video_id)) }

/-- The normalized URL computed by create_video / upsert_video_file /
upsert_video_by_vault: normalize_url(source_url) if source_url else None. -/
def normalized_of (source_url : Option (List Char)) : Option (List Char) :=
  match source_url with
  | some u => if u.isEmpty then none else normalize_url (some u)
  | none => none

/-- The row created by the INSERT of create_video (src/storage.py 299-312):
fresh id, stripped title, normalized URL, all vault and storage columns
NULL, needs_refresh at its DEFAULT 0.  `now` models CURRENT_TIMESTAMP. -/
def create_candidate (st : CatalogStore) (title : List Char)
    (file_id file_unique_id source_url : Option (List Char)) (now : List Char) :
    VideoRow :=
  { id := st.next_id
    title := pyStrip title
    file_id := file_id
    file_unique_id := file_unique_id
    source_url := source_url
    source_url_normalized := normalized_of source_url
    created_at := some now
    storage_chat_id := none
    storage_message_id := none
    needs_refresh := some 0
    vault_chat_id := none
    vault_message_id := none }

/-- create_video from src/storage.py lines 299-312.  A plain INSERT: if
the new row violates a unique constraint sqlite raises and the store is
left unchanged; otherwise the row is appended and the category
associations replaced. -/
def create_video (st : CatalogStore) (title : List Char)
    (file_id file_unique_id source_url : Option (List Char))
    (cats : List (List Char)) (now : List Char) :
    CatalogStore × Except StoreError Int :=
  if st.rows.any (fun r =>
      rowConflict r (create_candidate st title file_id file_unique_id source_url now)) then
    (st, .error .integrityViolation)
  else
    (set_categories
      { st with
        rows := st.rows ++ [create_candidate st title file_id file_unique_id source_url now]
        next_id := st.next_id + 1 }
      st.next_id cats, .ok st.next_id)

/-- The title validation of the add-video flow (src/bot.py lines 295-304)
composed with create_video: the spec's `create` operation.  `text` is
message.text; (message.text or "").strip() must be non-empty and at most
120 characters. -/
def add_video (st : CatalogStore) (text : Option (List Char))
    (file_id file_unique_id source_url : Option (List Char))
    (cats : List (List Char)) (now : List Char) :
    CatalogStore × Except StoreError Int :=
  if (pyStrip (text.getD [])).isEmpty then (st, .error .validationError)
  else if 120 < (pyStrip (text.getD [])).length then (st, .error .validationError)
  else create_video st (pyStrip (text.getD [])) file_id file_unique_id source_url cats now

/-- upsert_video_file from src/storage.py lines 327-339: a plain INSERT
with needs_refresh = 0 and no vault columns.  It never updates an
existing row. -/
def upsert_video_file (st : CatalogStore) (title : List Char)
    (file_id file_unique_id source_url : Option (List Char)) (now : List Char) :
    CatalogStore × Except StoreError Int :=
  let row : VideoRow :=
    { id := st.next_id
      title := pyStrip title
      file_id := file_id
      file_unique_id := file_unique_id
      source_url := source_url
      source_url_normalized := normalized_of source_url
      created_at := some now
      storage_chat_id := none
      storage_message_id := none
      needs_refresh := some 0
      vault_chat_id := none
      vault_message_id := none }
  if st.rows.any (fun r => rowConflict r row) then (st, .error .integrityViolation)
  else ({ st with rows := st.rows ++ [row], next_id := st.next_id + 1 }, .ok st.next_id)

/-- upsert_video_by_vault from src/storage.py lines 341-378: INSERT ... ON
CONFLICT(vault_chat_id, vault_message_id) DO UPDATE of the mutable fields
with needs_refresh = 0, then SELECT id by the vault pair. -/
def upsert_video_by_vault (st : CatalogStore) (title : List Char)
    (file_id file_unique_id source_url : Option (List Char))
    (vault_chat_id vault_message_id : Int) (now : List Char) :
    CatalogStore × Except StoreError Int :=
  let normalized := normalized_of source_url
  match st.rows.find? (fun r =>
      r.vault_chat_id == some vault_chat_id && r.vault_message_id == some vault_message_id) with
  | some r0 =>
    let updated : VideoRow :=
      { r0 with
        title := pyStrip title
        file_id := file_id
        file_unique_id := file_unique_id
        source_url := source_url
        source_url_normalized := normalized
        needs_refresh := some 0
        storage_chat_id := some vault_chat_id
        storage_message_id := some vault_message_id }
    if st.rows.any (fun r => !(r.id == r0.id) && urlConflict r updated) then
      (st, .error .integrityViolation)
    else
      ({ st with rows := st.rows.map (fun r => if r.id == r0.id then updated else r) },
       .ok r0.id)
  | none =>
    let row : VideoRow :=
      { id := st.next_id
        title := pyStrip title
        file_id := file_id
        file_unique_id := file_unique_id
        source_url := source_url
        source_url_normalized := normalized
        created_at := some now
        storage_chat_id := some vault_chat_id
        storage_message_id := some vault_message_id
        needs_refresh := some 0
        vault_chat_id := some vault_chat_id
        vault_message_id := some vault_message_id }
    if st.rows.any (fun r => rowConflict r row) then (st, .error .integrityViolation)
    else ({ st with rows := st.rows ++ [row], next_id := st.next_id + 1 }, .ok st.next_id)

/-- The id the categories table maps a name to, if any. -/
def category_id_of (st : CatalogStore) (nm : List Char) : Option Int :=
  (st.categories.find? (fun p => p.2 == nm)).map (fun p => p.1)

/-- Wellformedness the UNIQUE constraint keeps on categories: no two rows
share a name. -/
def CategoriesWF (st : CatalogStore) : Prop :=
  st.categories.Pairwise (fun p q => p.2 ≠ q.2)

/-! ## Schema lifecycle (src/storage.py ensure_videos_schema and
_rebuild_videos_table) -/

/-- Metadata of one index as read by PRAGMA index_list / index_info. -/
structure IndexInfo where
  name : List Char
  unique : Bool
  columns : List (List Char)
deriving DecidableEq

/-- The store state the schema lifecycle manager sees: the videos table
(none when absent), its column and index metadata, the videos_old table
left by a rename, and the PRAGMA integrity_check outcome. -/
structure DBState where
  videos : Option (List VideoRow)
  videos_columns : List (List Char)
  videos_indexes : List IndexInfo
  videos_old : Option (List VideoRow)
  integrity_ok : Bool
deriving DecidableEq

/-- Columns of the target videos table (src/storage.py 189-211). -/
def target_columns : List (List Char) :=
  ["id", "title", "file_id", "file_unique_id", "source_url",
   "source_url_normalized", "created_at", "storage_chat_id",
   "storage_message_id", "needs_refresh", "vault_chat_id",
   "vault_message_id"].map String.toList

/-- Indexes of the target videos table (src/storage.py 189-211). -/
def target_indexes : List IndexInfo :=
  [{ name := "ux_videos_vault_pair".toList
     unique := true
     columns := ["vault_chat_id".toList, "vault_message_id".toList] },
   { name := "ix_videos_created_at".toList
     unique := false
     columns := ["created_at".toList] },
   { name := "ix_videos_vault_chat_id".toList
     unique := false
     columns := ["vault_chat_id".toList] }]

/-- has_vault_cols check of ensure_videos_schema (src/storage.py 136). -/
def has_vault_cols (cols : List (List Char)) : Bool :=
  cols.contains "vault_chat_id".toList && cols.contains "vault_message_id".toList

/-- has_unique_file_unique_id check (src/storage.py 137-139). -/
def has_unique_file_unique_id (idxs : List IndexInfo) : Bool :=
  idxs.any (fun i => i.unique && i.columns.contains "file_unique_id".toList)

/-- has_unique_vault_pair check (src/storage.py 140-145). -/
def has_unique_vault_pair (idxs : List IndexInfo) : Bool :=
  idxs.any (fun i =>
    i.unique && i.columns.contains "vault_chat_id".toList
      && i.columns.contains "vault_message_id".toList)

/-- The SELECT of the migration copy (src/storage.py 220-235): carry every
column, COALESCE needs_refresh to 0 and the vault pair to the storage
pair. -/
def migrate_row (r : VideoRow) : VideoRow :=
  { r with
    needs_refresh := some (r.needs_refresh.getD 0)
    vault_chat_id := (match r.vault_chat_id with
      | some v => some v
      | none => r.storage_chat_id)
    vault_message_id := (match r.vault_message_id with
      | some v => some v
      | none => r.storage_message_id) }

/-- INSERT OR IGNORE of one row into the target table: keep the table
unchanged when the row collides with an already-inserted one. -/
def insert_or_ignore (acc : List VideoRow) (r : VideoRow) : List VideoRow :=
  if acc.any (fun s => rowConflict s r) then acc else acc ++ [r]

/-- The whole INSERT OR IGNORE ... SELECT ... FROM videos_old copy. -/
def copy_rows (old : List VideoRow) : List VideoRow :=
  old.foldl (fun acc r => insert_or_ignore acc (migrate_row r)) []

/-- Steps of the migration transaction at which the backend may fail. -/
inductive MigStep where
  | begin_txn | rename_old | create_table | copy_old_rows | drop_old | commit_txn
deriving DecidableEq

/-- A fault model: which transaction steps raise a backend exception. -/
structure FaultOracle where
  fails : MigStep → Bool

/-- Errors surfaced by the schema lifecycle manager. -/
inductive MigError where
  | backendFault : MigStep → MigError
  | integrityFailed
  | postCheckFailed
deriving DecidableEq

/-- _rebuild_videos_table from src/storage.py lines 213-266, with Python
sqlite3 legacy transaction semantics.  BEGIN IMMEDIATE opens an explicit
transaction that holds the ALTER TABLE ... RENAME, but _create_videos_table
(line 219) runs through conn.executescript, which first issues an implicit
COMMIT of that pending transaction: the rename, and then the created
target table, are durable before the copy starts.  The INSERT OR IGNORE
copy then opens a new implicit transaction that also holds the DROP of
videos_old until the final COMMIT.  On an exception the except branch
executes ROLLBACK — undoing only the transaction still open, if any — and
re-raises; so a failure at begin or rename restores the original store,
while a failure at create, copy, drop or COMMIT leaves the renamed
videos_old (and, past the create, a fresh empty videos table) behind.
After the try, the indexes are re-inspected and a post-check error raised
when the target constraints are not met.  Returns the durable store state
paired with the outcome. -/
def rebuild_videos_table (db : DBState) (o : FaultOracle) :
    DBState × Except MigError (Nat × Nat) :=
  if o.fails .begin_txn then (db, .error (.backendFault .begin_txn)) else
  if o.fails .rename_old then (db, .error (.backendFault .rename_old)) else
  match db.videos with
  | none => (db, .error (.backendFault .rename_old))
  | some old =>
    match db.videos_old with
    | some _ => (db, .error (.backendFault .rename_old))
    | none =>
      if o.fails .create_table then
        ({ db with videos := none, videos_old := some old },
         .error (.backendFault .create_table))
      else
      if o.fails .copy_old_rows then
        ({ db with
           videos := some []
           videos_columns := target_columns
           videos_indexes := target_indexes
           videos_old := some old }, .error (.backendFault .copy_old_rows))
      else
      if o.fails .drop_old then
        ({ db with
           videos := some []
           videos_columns := target_columns
           videos_indexes := target_indexes
           videos_old := some old }, .error (.backendFault .drop_old))
      else
      if o.fails .commit_txn then
        ({ db with
           videos := some []
           videos_columns := target_columns
           videos_indexes := target_indexes
           videos_old := some old }, .error (.backendFault .commit_txn))
      else
      if has_unique_vault_pair target_indexes
          && !has_unique_file_unique_id target_indexes then
        ({ db with
           videos := some (copy_rows old)
           videos_columns := target_columns
           videos_indexes := target_indexes
           videos_old := none },
         .ok ((copy_rows old).length, old.length - (copy_rows old).length))
      else
        ({ db with
           videos := some (copy_rows old)
           videos_columns := target_columns
           videos_indexes := target_indexes
           videos_old := none }, .error .postCheckFailed)

/-- ensure_videos_schema from src/storage.py lines 126-160: health check,
fresh create when the table is absent, otherwise migrate only when the
live layout misses the target constraint set. -/
def ensure_videos_schema (db : DBState) (o : FaultOracle) :
    DBState × Except MigError Unit :=
  if !db.integrity_ok then (db, .error .integrityFailed)
  else
    match db.videos with
    | none =>
      ({ db with
         videos := some []
         videos_columns := target_columns
         videos_indexes := target_indexes }, .ok ())
    | some _ =>
      if !(has_unique_vault_pair db.videos_indexes
            && !has_unique_file_unique_id db.videos_indexes
            && has_vault_cols db.videos_columns) then
        match rebuild_videos_table db o with
        | (db2, .ok _) => (db2, .ok ())
        | (db2, .error e) => (db2, .error e)
      else (db, .ok ())

/-! ## Concrete fixtures used by the theorems below -/

/-- A legacy-layout store holding one row, as seen at startup. -/
def legacyStore : DBState := { videos := some [{ id := 1, title := "a".toList, file_id := none, file_unique_id := some "k1".toList, source_url := none, source_url_normalized := none, created_at := none, storage_chat_id := some 10, storage_message_id := some 20, needs_refresh := none, vault_chat_id := none, vault_message_id := none }], videos_columns := [], videos_indexes := [], videos_old := none, integrity_ok := true }

/-- A backend that raises at the INSERT OR IGNORE copy statement. -/
def copyFailOracle : FaultOracle := { fails := fun s => decide (s = .copy_old_rows) }

def legacyRowA : VideoRow := { id := 1, title := "a".toList, file_id := none, file_unique_id := some "k1".toList, source_url := none, source_url_normalized := none, created_at := none, storage_chat_id := some 10, storage_message_id := some 20, needs_refresh := none, vault_chat_id := none, vault_message_id := none }

def legacyRowB : VideoRow := { id := 2, title := "b".toList, file_id := none, file_unique_id := some "k1".toList, source_url := none, source_url_normalized := none, created_at := none, storage_chat_id := some 10, storage_message_id := some 20, needs_refresh := none, vault_chat_id := none, vault_message_id := none }

def emptyCatalog : CatalogStore := { rows := [], next_id := 1, categories := [], next_category_id := 1, video_categories := [] }

def vaultRow1 : VideoRow := { id := 1, title := "a".toList, file_id := none, file_unique_id := some "K1".toList, source_url := none, source_url_normalized := none, created_at := none, storage_chat_id := some 1, storage_message_id := some 1, needs_refresh := some 1, vault_chat_id := some 1, vault_message_id := some 1 }

def vaultCatalog : CatalogStore := { rows := [vaultRow1], next_id := 2, categories := [], next_category_id := 1, video_categories := [] }

def urlRow : VideoRow := { id := 1, title := "a".toList, file_id := none, file_unique_id := none, source_url := some "example.com/x".toList, source_url_normalized := some "example.com/x".toList, created_at := none, storage_chat_id := none, storage_message_id := none, needs_refresh := some 0, vault_chat_id := none, vault_message_id := none }

def urlCatalog : CatalogStore := { rows := [urlRow], next_id := 2, categories := [], next_category_id := 1, video_categories := [] }

/-! ## Helper lemmas -/

theorem char_toNat_ofNat_of_lt {n : Nat} (h : n < 55296) :
    (Char.ofNat n).toNat = n := by
  unfold Char.ofNat
  rw [dif_pos (Or.inl h)]
  rfl

theorem char_toLower_idem (c : Char) : c.toLower.toLower = c.toLower := by
  unfold Char.toLower
  by_cases h : c.toNat ≥ 65 ∧ c.toNat ≤ 90
  · rw [if_pos h]
    have h32 : (Char.ofNat (c.toNat + 32)).toNat = c.toNat + 32 :=
      char_toNat_ofNat_of_lt (by omega)
    rw [if_neg (by rw [h32]; omega)]
  · rw [if_neg h, if_neg h]

theorem dropWhile_dropWhile {α : Type} (p : α → Bool) (l : List α) :
    (l.dropWhile p).dropWhile p = l.dropWhile p := by
  induction l with
  | nil => rfl
  | cons a l ih =>
    by_cases h : p a
    · simp [List.dropWhile_cons, h, ih]
    · simp [List.dropWhile_cons, h]

theorem rstripSlash_idem (s : List Char) :
    rstripSlash (rstripSlash s) = rstripSlash s := by
  unfold rstripSlash
  rw [List.reverse_reverse, dropWhile_dropWhile]

theorem mem_of_mem_dropWhile {α : Type} {a : α} {p : α → Bool} {l : List α}
    (h : a ∈ l.dropWhile p) : a ∈ l :=
  (List.dropWhile_sublist p).mem h

theorem mem_of_mem_rstripSlash {a : Char} {s : List Char}
    (h : a ∈ rstripSlash s) : a ∈ s := by
  unfold rstripSlash at h
  rw [List.mem_reverse] at h
  exact List.mem_reverse.mp (mem_of_mem_dropWhile h)

theorem mem_of_mem_stripScheme {a : Char} {s : List Char}
    (h : a ∈ stripScheme s) : a ∈ s := by
  unfold stripScheme at h
  split at h
  · exact List.mem_of_mem_drop h
  · split at h
    · exact List.mem_of_mem_drop h
    · exact h

theorem mem_of_mem_pyStrip {a : Char} {s : List Char}
    (h : a ∈ pyStrip s) : a ∈ s := by
  unfold pyStrip at h
  rw [List.mem_reverse] at h
  have h2 := mem_of_mem_dropWhile h
  rw [List.mem_reverse] at h2
  exact mem_of_mem_dropWhile h2

theorem pyLower_fixed {v : List Char} (h : ∀ a ∈ v, a.toLower = a) :
    pyLower v = v := by
  unfold pyLower
  induction v with
  | nil => rfl
  | cons a l ih =>
    simp only [List.map_cons]
    rw [h a (by simp), ih (fun b hb => h b (by simp [hb]))]

theorem mem_pyLower_toLower {a : Char} {s : List Char} (h : a ∈ pyLower s) :
    a.toLower = a := by
  unfold pyLower at h
  obtain ⟨b, _, rfl⟩ := List.mem_map.mp h
  exact char_toLower_idem b


theorem normalize_url_some_eq {u : List Char} (hu : u ≠ []) :
    normalize_url (some u) = some (rstripSlash (stripScheme (pyLower (pyStrip u)))) := by
  have h0 : normalize_url (some u)
      = if u.isEmpty = true then none
        else some (rstripSlash (stripScheme (pyLower (pyStrip u)))) := rfl
  rw [h0, if_neg (by simpa [List.isEmpty_iff] using hu)]

/-- C10: normalize_url returns None exactly for None or the empty string;
any other input yields a string, possibly empty (whitespace-only input,
bare scheme). -/
theorem normalize_url_none_iff :
    (∀ u : Option (List Char), normalize_url u = none ↔ u = none ∨ u = some []) ∧
    normalize_url (some "   ".toList) = some [] ∧
    normalize_url (some "https://".toList) = some [] := by
  refine ⟨?_, by decide, by decide⟩
  intro u
  match u with
  | none => simp [normalize_url]
  | some [] => simp [normalize_url]
  | some (c :: cs) =>
    rw [normalize_url_some_eq (by simp)]
    simp

/-- C8 counterexample: normalize_url is not idempotent on every string.
A bare scheme normalizes to the empty string, which re-normalizes to
None; stripping trailing slashes can expose trailing whitespace; and
stripping one scheme can expose a second one. -/
theorem normalize_url_idem_cex :
    normalize_url (some "https://".toList) = some [] ∧
    normalize_url (normalize_url (some "https://".toList)) ≠
      normalize_url (some "https://".toList) ∧
    normalize_url (some " x / ".toList) = some "x ".toList ∧
    normalize_url (normalize_url (some " x / ".toList)) ≠
      normalize_url (some " x / ".toList) ∧
    normalize_url (some "http://http://x".toList) = some "http://x".toList ∧
    normalize_url (normalize_url (some "http://http://x".toList)) ≠
      normalize_url (some "http://http://x".toList) := by
  refine ⟨by decide, by decide, by decide, by decide, by decide, by decide⟩

/-- C8 (amended): normalization is idempotent on every input whose first
normalization is None, or is a non-empty string that is whitespace-free
at its ends and does not start with a scheme again; and the three
reference inputs all normalize to the same key. -/
theorem normalize_url_idem_amended :
    (∀ u v : List Char, normalize_url (some u) = some v → v ≠ [] →
      pyStrip v = v → v.take 8 ≠ schemeHttps → v.take 7 ≠ schemeHttp →
      normalize_url (some v) = some v) ∧
    (normalize_url (some "HTTPS://Example.com/x/".toList) = some "example.com/x".toList ∧
     normalize_url (some "example.com/x".toList) = some "example.com/x".toList ∧
     normalize_url (some "http://example.com/x".toList) = some "example.com/x".toList) := by
  constructor
  · intro u v hv hne hstrip h8 h7
    have hu : u ≠ [] := by
      intro h
      subst h
      simp [normalize_url] at hv
    rw [normalize_url_some_eq hu] at hv
    have hveq : v = rstripSlash (stripScheme (pyLower (pyStrip u))) := by
      injection hv with h
      exact h.symm
    have hlow : ∀ a ∈ v, a.toLower = a := by
      intro a ha
      rw [hveq] at ha
      exact mem_pyLower_toLower (mem_of_mem_stripScheme (mem_of_mem_rstripSlash ha))
    have hlower : pyLower v = v := pyLower_fixed hlow
    have hscheme : stripScheme v = v := by
      unfold stripScheme
      rw [if_neg h8, if_neg h7]
    have hslash : rstripSlash v = v := by
      rw [hveq]
      exact rstripSlash_idem _
    rw [normalize_url_some_eq hne, hstrip, hlower, hscheme, hslash]
  · exact ⟨by decide, by decide, by decide⟩

/-- C8 witness: the amended idempotence applied to a concrete URL. -/
theorem normalize_url_idem_amended_witness :
    normalize_url (some "example.com/x".toList) = some "example.com/x".toList :=
  normalize_url_idem_amended.1 "HTTPS://Example.com/x/".toList "example.com/x".toList
    (by decide) (by decide) (by decide) (by decide) (by decide)

/-- C4: resolve_role check order. -/
theorem resolve_role_spec :
    ∀ (uid : Int) (admin_ids : Finset Int) (users : List UserRow) (now : Int),
    (uid ∈ admin_ids → resolve_role (some uid) admin_ids users now = .admin) ∧
    (uid ∉ admin_ids → get_user users uid = none →
      resolve_role (some uid) admin_ids users now = .unknown) ∧
    (∀ row, uid ∉ admin_ids → get_user users uid = some row → row.is_banned = 1 →
      resolve_role (some uid) admin_ids users now = .banned) ∧
    (∀ row e, uid ∉ admin_ids → get_user users uid = some row → row.is_banned ≠ 1 →
      row.expires_at = some e → e ≤ now →
      resolve_role (some uid) admin_ids users now = .expired) ∧
    (∀ row, uid ∉ admin_ids → get_user users uid = some row → row.is_banned ≠ 1 →
      (row.expires_at = none ∨ ∃ e, row.expires_at = some e ∧ now < e) →
      resolve_role (some uid) admin_ids users now = .member) := by
  intro uid admin_ids users now
  refine ⟨?_, ?_, ?_, ?_, ?_⟩
  · intro h
    simp [resolve_role, h]
  · intro h hg
    simp [resolve_role, h, hg]
  · intro row h hg hb
    simp [resolve_role, h, hg, hb]
  · intro row e h hg hb he hle
    simp [resolve_role, h, hg, hb, he, hle]
  · intro row h hg hb hcase
    rcases hcase with hnone | ⟨e, he, hlt⟩
    · simp [resolve_role, h, hg, hb, hnone]
    · simp [resolve_role, h, hg, hb, he, show ¬(e ≤ now) from by omega]

theorem get_user_update_expiration (users : List UserRow) (id : Int)
    (v : Option Int) (ts : Int) :
    get_user (update_expiration users id v ts) id
      = (get_user users id).map (fun r => { r with expires_at := v, updated_at := ts }) := by
  induction users with
  | nil => rfl
  | cons a l ih =>
    by_cases h : a.telegram_id = id
    · simp [get_user, update_expiration, List.find?_cons, h]
    · simp only [get_user, update_expiration, List.map_cons] at ih ⊢
      rw [List.find?_cons, List.find?_cons]
      have hup : ((if (a.telegram_id == id) = true then
          { a with expires_at := v, updated_at := ts } else a).telegram_id == id) = false := by
        rw [if_neg (by simpa using h)]
        simpa using h
      have ha : (a.telegram_id == id) = false := by simpa using h
      rw [hup, ha]
      exact ih

theorem get_user_append_of_none (users : List UserRow) (new : UserRow) (id : Int)
    (h : get_user users id = none) :
    get_user (users ++ [new]) id = if new.telegram_id == id then some new else none := by
  unfold get_user at h ⊢
  rw [List.find?_append, h]
  cases hn : new.telegram_id == id <;> simp [List.find?_cons, hn]

theorem any_telegram_eq_false_of_get_user_none {users : List UserRow} {id : Int}
    (h : get_user users id = none) :
    users.any (fun r => r.telegram_id == id) = false := by
  unfold get_user at h
  rw [List.any_eq_false]
  intro r hr
  simpa using List.find?_eq_none.mp h r hr

theorem edit_plus_snd_none (users : List UserRow) (tid : Int)
    (un fn : Option (List Char)) (adm : Finset Int) (now days : Int)
    (hadm : tid ∉ adm) (hg : get_user users tid = none) :
    (edit_plus users tid un fn adm now days).2 = some (now + days * SECONDS_IN_DAY) := by
  simp only [edit_plus, if_neg hadm, hg, edit_plus_base]

theorem edit_plus_snd_noexp (users : List UserRow) (tid : Int)
    (un fn : Option (List Char)) (adm : Finset Int) (now days : Int) (r : UserRow)
    (hadm : tid ∉ adm) (hg : get_user users tid = some r) (he : r.expires_at = none) :
    (edit_plus users tid un fn adm now days).2 = some (now + days * SECONDS_IN_DAY) := by
  simp only [edit_plus, if_neg hadm, hg, edit_plus_base, he]

theorem edit_plus_snd_some (users : List UserRow) (tid : Int)
    (un fn : Option (List Char)) (adm : Finset Int) (now days : Int) (r : UserRow) (e : Int)
    (hadm : tid ∉ adm) (hg : get_user users tid = some r) (he : r.expires_at = some e) :
    (edit_plus users tid un fn adm now days).2
      = some (max now e + days * SECONDS_IN_DAY) := by
  simp only [edit_plus, if_neg hadm, hg, edit_plus_base, he]
  by_cases hlt : e < now
  · simp [hlt, max_eq_left (le_of_lt hlt)]
  · simp [hlt, max_eq_right (by omega : now ≤ e)]

theorem edit_plus_stored (users : List UserRow) (tid : Int)
    (un fn : Option (List Char)) (adm : Finset Int) (now days : Int) (v : Int)
    (hadm : tid ∉ adm)
    (hv : (edit_plus users tid un fn adm now days).2 = some v) :
    ∃ r2, get_user (edit_plus users tid un fn adm now days).1 tid = some r2 ∧
      r2.expires_at = some v := by
  cases hg : get_user users tid with
  | some r =>
    simp only [edit_plus, if_neg hadm, hg] at hv ⊢
    rw [get_user_update_expiration, hg]
    simp only [Option.some.injEq] at hv
    exact ⟨_, rfl, by simp [hv]⟩
  | none =>
    have hany := any_telegram_eq_false_of_get_user_none hg
    simp only [edit_plus, if_neg hadm, hg] at hv ⊢
    simp only [Option.some.injEq] at hv
    unfold upsert_user
    rw [hany]
    simp only [Bool.false_eq_true, if_false]
    rw [get_user_append_of_none _ _ _ hg]
    simp [hv]

/-- C5: extension base is max(now, current expiry); missing record or null
expiry restart from now; the stored record carries the new expiry; an
extension of a record expired 3 days ago lands at now + 7d and of one with
10 days left at now + 17d. -/
theorem edit_plus_extension_spec :
    ∀ (users : List UserRow) (tid : Int) (un fn : Option (List Char))
      (adm : Finset Int) (now days : Int), tid ∉ adm →
    (get_user users tid = none →
      (edit_plus users tid un fn adm now days).2 = some (now + days * SECONDS_IN_DAY)) ∧
    (∀ r, get_user users tid = some r → r.expires_at = none →
      (edit_plus users tid un fn adm now days).2 = some (now + days * SECONDS_IN_DAY)) ∧
    (∀ r e, get_user users tid = some r → r.expires_at = some e →
      (edit_plus users tid un fn adm now days).2
        = some (max now e + days * SECONDS_IN_DAY)) ∧
    (∀ v, (edit_plus users tid un fn adm now days).2 = some v →
      ∃ r2, get_user (edit_plus users tid un fn adm now days).1 tid = some r2 ∧
        r2.expires_at = some v) ∧
    (∀ r, get_user users tid = some r → r.expires_at = some (now - 3 * SECONDS_IN_DAY) →
      (edit_plus users tid un fn adm now 7).2 = some (now + 7 * SECONDS_IN_DAY)) ∧
    (∀ r, get_user users tid = some r → r.expires_at = some (now + 10 * SECONDS_IN_DAY) →
      (edit_plus users tid un fn adm now 7).2 = some (now + 17 * SECONDS_IN_DAY)) := by
  intro users tid un fn adm now days hadm
  refine ⟨fun hg => edit_plus_snd_none _ _ _ _ _ _ _ hadm hg,
    fun r hg he => edit_plus_snd_noexp _ _ _ _ _ _ _ r hadm hg he,
    fun r e hg he => edit_plus_snd_some _ _ _ _ _ _ _ r e hadm hg he,
    fun v hv => edit_plus_stored _ _ _ _ _ _ _ v hadm hv, ?_, ?_⟩
  · intro r hg he
    rw [edit_plus_snd_some _ _ _ _ _ _ _ r _ hadm hg he,
      max_eq_left (sub_le_self now (by norm_num [SECONDS_IN_DAY]))]
  · intro r hg he
    rw [edit_plus_snd_some _ _ _ _ _ _ _ r _ hadm hg he,
      max_eq_right (le_add_of_nonneg_right (by norm_num [SECONDS_IN_DAY]))]
    congr 1
    ring

/-- C5 witness: the expired-three-days-ago scenario at a concrete record. -/
theorem edit_plus_extension_spec_witness :
    (edit_plus [{ telegram_id := 5, username := none, full_name := none, expires_at := some (-259200), is_banned := 0, note := none, created_at := 0, updated_at := 0 }] 5 none none ∅ 0 7).2 = some (0 + 7 * SECONDS_IN_DAY) :=
  (edit_plus_extension_spec [{ telegram_id := 5, username := none, full_name := none, expires_at := some (-259200), is_banned := 0, note := none, created_at := 0, updated_at := 0 }] 5 none none ∅ 0 7 (by decide)).2.2.2.2.1
    { telegram_id := 5, username := none, full_name := none, expires_at := some (-259200), is_banned := 0, note := none, created_at := 0, updated_at := 0 }
    (by decide) (by decide)

/-- C4 witness: an admin id resolves to Admin even with a banned record. -/
theorem resolve_role_spec_witness :
    resolve_role (some 1) {1} [{ telegram_id := 1, username := none, full_name := none, expires_at := some 0, is_banned := 1, note := none, created_at := 0, updated_at := 0 }] 5 = .admin :=
  (resolve_role_spec 1 {1} [{ telegram_id := 1, username := none, full_name := none, expires_at := some 0, is_banned := 1, note := none, created_at := 0, updated_at := 0 }] 5).1 (by decide)

/-- C9: toggle_favorite reports the new membership state, double toggling
restores the favorites table exactly, and from a non-favorite start the
membership after N toggles is the parity of N. -/
theorem toggle_favorite_spec :
    ∀ (favs : Finset (Int × Int)) (u v : Int),
    ((toggle_favorite favs u v).2 = is_favorite (toggle_favorite favs u v).1 u v) ∧
    ((toggle_favorite (toggle_favorite favs u v).1 u v).1 = favs) ∧
    ((u, v) ∉ favs → ∀ n,
      is_favorite (toggle_favorite_iter favs u v n) u v = decide (n % 2 = 1)) := by
  intro favs u v
  refine ⟨?_, ?_, ?_⟩
  · by_cases h : (u, v) ∈ favs <;>
      simp [toggle_favorite, is_favorite, h]
  · by_cases h : (u, v) ∈ favs
    · simp only [toggle_favorite, if_pos h]
      rw [if_neg (Finset.not_mem_erase (u, v) favs)]
      exact Finset.insert_erase h
    · simp only [toggle_favorite, if_neg h]
      rw [if_pos (Finset.mem_insert_self (u, v) favs)]
      exact Finset.erase_insert h
  · intro h n
    have key : ∀ m, ((u, v) ∈ toggle_favorite_iter favs u v m ↔ m % 2 = 1) := by
      intro m
      induction m with
      | zero => simpa [toggle_favorite_iter] using h
      | succ k ih =>
        by_cases hm : (u, v) ∈ toggle_favorite_iter favs u v k
        · have hk := ih.mp hm
          simp only [toggle_favorite_iter, toggle_favorite, if_pos hm]
          simp [Finset.mem_erase]
          omega
        · have hk : ¬(k % 2 = 1) := fun hh => hm (ih.mpr hh)
          simp only [toggle_favorite_iter, toggle_favorite, if_neg hm]
          simp [Finset.mem_insert]
          omega
    unfold is_favorite
    exact decide_eq_decide.mpr (key n)

/-- C9 witness: three toggles of a fresh pair leave it a favorite. -/
theorem toggle_favorite_spec_witness :
    is_favorite (toggle_favorite_iter (∅ : Finset (Int × Int)) 1 2 3) 1 2
      = decide (3 % 2 = 1) :=
  (toggle_favorite_spec ∅ 1 2).2.2 (by decide) 3

/-- C3: when the live videos layout already satisfies the target
constraint set, ensure_videos_schema writes nothing, and a second run
leaves the store identical. -/
theorem ensure_videos_schema_idempotent :
    ∀ (db : DBState) (o o2 : FaultOracle) (rows : List VideoRow),
    db.integrity_ok = true →
    db.videos = some rows →
    has_vault_cols db.videos_columns = true →
    has_unique_vault_pair db.videos_indexes = true →
    has_unique_file_unique_id db.videos_indexes = false →
    ensure_videos_schema db o = (db, .ok ()) ∧
    ensure_videos_schema (ensure_videos_schema db o).1 o2 = (db, .ok ()) := by
  intro db o o2 rows hint hvid hcols hpair hfu
  have h1 : ∀ oo : FaultOracle, ensure_videos_schema db oo = (db, .ok ()) := by
    intro oo
    unfold ensure_videos_schema
    rw [hint, hvid]
    simp [hpair, hfu, hcols]
  refine ⟨h1 o, ?_⟩
  rw [h1 o]
  exact h1 o2

/-- C3 witness: a concrete already-migrated store is untouched. -/
theorem ensure_videos_schema_idempotent_witness :
    ensure_videos_schema { videos := some [], videos_columns := target_columns, videos_indexes := target_indexes, videos_old := none, integrity_ok := true } { fails := fun _ => false }
      = ({ videos := some [], videos_columns := target_columns, videos_indexes := target_indexes, videos_old := none, integrity_ok := true }, .ok ()) :=
  (ensure_videos_schema_idempotent
    { videos := some [], videos_columns := target_columns, videos_indexes := target_indexes, videos_old := none, integrity_ok := true }
    { fails := fun _ => false } { fails := fun _ => false } []
    (by decide) (by decide) (by decide) (by decide) (by decide)).1

theorem rebuild_videos_table_ok_shape {db : DBState} {o : FaultOracle}
    {db2 : DBState} {ins skp : Nat}
    (h : rebuild_videos_table db o = (db2, .ok (ins, skp))) :
    ∃ old, db.videos = some old ∧
      db2 = { db with videos := some (copy_rows old)
                      videos_columns := target_columns
                      videos_indexes := target_indexes
                      videos_old := none } ∧
      ins = (copy_rows old).length ∧
      skp = old.length - (copy_rows old).length := by
  unfold rebuild_videos_table at h
  repeat' split at h
  all_goals try exact Except.noConfusion (congrArg Prod.snd h)
  have hdb := congrArg Prod.fst h
  have hok := congrArg Prod.snd h
  simp only [] at hdb hok
  injection hok with hx
  refine ⟨_, by assumption, hdb.symm, ?_, ?_⟩
  · exact (congrArg Prod.fst hx).symm
  · exact (congrArg Prod.snd hx).symm

/-- C1 (code bug): the code cannot deliver the promised full rollback.
Starting from a concrete legacy store with one row and a backend fault at
the copy statement, the rebuild raises (the exception propagates), but the
store is NOT left as it was: because _create_videos_table runs through
conn.executescript, which implicitly COMMITs the pending BEGIN IMMEDIATE
and rename, the failed migration leaves videos_old holding the old rows
next to a fresh empty videos table with the target layout. -/
theorem rebuild_videos_table_partial_migration :
    (rebuild_videos_table legacyStore copyFailOracle).2
      = .error (.backendFault .copy_old_rows) ∧
    (rebuild_videos_table legacyStore copyFailOracle).1 ≠ legacyStore ∧
    (rebuild_videos_table legacyStore copyFailOracle).1
      = { legacyStore with
          videos := some []
          videos_columns := target_columns
          videos_indexes := target_indexes
          videos_old := legacyStore.videos } := by
  refine ⟨rfl, ?_, rfl⟩
  decide

theorem copy_rows_foldl_length : ∀ (old acc : List VideoRow),
    (old.foldl (fun acc r => insert_or_ignore acc (migrate_row r)) acc).length
      ≤ acc.length + old.length := by
  intro old
  induction old with
  | nil => intro acc; simp
  | cons a l ih =>
    intro acc
    rw [List.foldl_cons]
    have h1 := ih (insert_or_ignore acc (migrate_row a))
    have h2 : (insert_or_ignore acc (migrate_row a)).length ≤ acc.length + 1 := by
      unfold insert_or_ignore
      split
      · omega
      · simp
    simp only [List.length_cons]
    omega

theorem copy_rows_snoc (old : List VideoRow) (r : VideoRow) :
    copy_rows (old ++ [r]) = insert_or_ignore (copy_rows old) (migrate_row r) := by
  unfold copy_rows
  rw [List.foldl_append]
  rfl

/-- C2: the migration copy keeps each old row exactly when its migrated
form does not collide with the rows already carried over, silently drops
colliding rows without aborting, and the rebuild reports the carried and
dropped counts (rows_before minus rows_after); a legacy store with two
rows sharing the coalesced vault pair keeps one and reports one skipped. -/
theorem copy_rows_migration_spec :
    (∀ (old : List VideoRow) (r : VideoRow),
      ((copy_rows old).any (fun s => rowConflict s (migrate_row r)) = false →
        copy_rows (old ++ [r]) = copy_rows old ++ [migrate_row r]) ∧
      ((copy_rows old).any (fun s => rowConflict s (migrate_row r)) = true →
        copy_rows (old ++ [r]) = copy_rows old)) ∧
    (∀ old : List VideoRow, (copy_rows old).length ≤ old.length) ∧
    (∀ (db : DBState) (o : FaultOracle) (ins skp : Nat) (db2 : DBState),
      rebuild_videos_table db o = (db2, .ok (ins, skp)) →
      ∃ old, db.videos = some old ∧ db2.videos = some (copy_rows old) ∧
        ins = (copy_rows old).length ∧ skp = old.length - (copy_rows old).length) ∧
    (copy_rows [legacyRowA, legacyRowB] = [migrate_row legacyRowA] ∧
      [legacyRowA, legacyRowB].length - (copy_rows [legacyRowA, legacyRowB]).length = 1) := by
  refine ⟨?_, ?_, ?_, by decide, by decide⟩
  · intro old r
    constructor
    · intro hno
      rw [copy_rows_snoc]
      unfold insert_or_ignore
      rw [hno]
      simp
    · intro hyes
      rw [copy_rows_snoc]
      unfold insert_or_ignore
      rw [hyes]
      simp
  · intro old
    have h := copy_rows_foldl_length old []
    simpa [copy_rows] using h
  · intro db o ins skp db2 hreb
    obtain ⟨old, hv, hsh, h1, h2⟩ := rebuild_videos_table_ok_shape hreb
    refine ⟨old, hv, ?_, h1, h2⟩
    rw [hsh]

/-- C2 witness: the colliding second legacy row is dropped, not copied. -/
theorem copy_rows_migration_spec_witness :
    copy_rows ([legacyRowA] ++ [legacyRowB]) = copy_rows [legacyRowA] :=
  (copy_rows_migration_spec.1 [legacyRowA] legacyRowB).2 (by decide)

/-- C6 counterexample: creating item A with content identity K1 and then
upserting item B (different title) with the same K1 leaves TWO rows whose
file_unique_id is K1 — via the plain-insert upsert and also via the vault
upsert when the vault pair differs (A has none). -/
theorem upsert_content_identity_cex :
    ((upsert_video_file (create_video emptyCatalog "A".toList none (some "K1".toList) none [] []).1
        "B".toList none (some "K1".toList) none []).1.rows.countP
      (fun r => r.file_unique_id == some "K1".toList) = 2) ∧
    ((upsert_video_by_vault (create_video emptyCatalog "A".toList none (some "K1".toList) none [] []).1
        "B".toList none (some "K1".toList) none 1 1 []).1.rows.countP
      (fun r => r.file_unique_id == some "K1".toList) = 2) := by
  exact ⟨by decide, by decide⟩

theorem urlConflict_right_none {r s : VideoRow}
    (h : s.source_url_normalized = none) : urlConflict r s = false := by
  unfold urlConflict
  rw [h]
  cases r.source_url_normalized <;> rfl

theorem find?_congr_mem {α : Type} {p q : α → Bool} {l : List α}
    (h : ∀ a ∈ l, p a = q a) : l.find? p = l.find? q := by
  induction l with
  | nil => rfl
  | cons x xs ih =>
    rw [List.find?_cons, List.find?_cons, h x (List.mem_cons_self x xs)]
    cases hq : q x with
    | true => rfl
    | false => exact ih (fun a ha => h a (List.mem_cons_of_mem _ ha))

theorem countP_congr_mem {α : Type} {p q : α → Bool} {l : List α}
    (h : ∀ a ∈ l, p a = q a) : l.countP p = l.countP q := by
  induction l with
  | nil => rfl
  | cons x xs ih =>
    rw [List.countP_cons, List.countP_cons, h x (List.mem_cons_self x xs),
      ih (fun a ha => h a (List.mem_cons_of_mem _ ha))]

theorem countP_eq_one_of_unique {α : Type} {p : α → Bool} {l : List α} {a : α}
    (hnodup : l.Nodup) (ha : a ∈ l) (hpa : p a = true)
    (hothers : ∀ b ∈ l, b ≠ a → p b = false) : l.countP p = 1 := by
  induction l with
  | nil => cases ha
  | cons x xs ih =>
    rw [List.countP_cons]
    rcases List.mem_cons.mp ha with rfl | hmem
    · have hz : xs.countP p = 0 := by
        rw [List.countP_eq_zero]
        intro b hb
        have hbne : b ≠ a := fun heq => (List.nodup_cons.mp hnodup).1 (heq ▸ hb)
        simp [hothers b (List.mem_cons_of_mem _ hb) hbne]
      rw [hz, hpa]
      simp
    · have hxa : x ≠ a := by
        intro heq
        exact (List.nodup_cons.mp hnodup).1 (heq ▸ hmem)
      have hx : p x = false := hothers x (List.mem_cons_self x xs) hxa
      rw [ih (List.nodup_cons.mp hnodup).2 hmem
        (fun b hb hbne => hothers b (List.mem_cons_of_mem _ hb) hbne), hx]
      simp

theorem vaultConflict_comm (r s : VideoRow) : vaultConflict r s = vaultConflict s r := by
  unfold vaultConflict
  cases r.vault_chat_id <;> cases r.vault_message_id <;>
    cases s.vault_chat_id <;> cases s.vault_message_id <;>
    simp [Bool.and_comm, BEq.comm]

theorem any_url_check_false (l : List VideoRow) (rid : Int) (X : VideoRow)
    (hX : X.source_url_normalized = none) :
    (l.any (fun r => !(r.id == rid) && urlConflict r X)) = false := by
  rw [List.any_eq_false]
  intro r hr
  simp [urlConflict_right_none hX]

theorem map_update_pred_eq (l : List VideoRow) (r0 upd : VideoRow)
    (p : VideoRow → Bool)
    (hid_unique : ∀ r ∈ l, r.id = r0.id → r = r0)
    (hp0 : p r0 = true) (hpu : p upd = true) :
    ∀ r ∈ l, (p ∘ fun r => if r.id == r0.id then upd else r) r = p r := by
  intro r hr
  by_cases h : r.id = r0.id
  · have hr0 : r = r0 := hid_unique r hr h
    subst hr0
    simp [Function.comp, hpu, hp0]
  · have hb : (r.id == r0.id) = false := by simpa using h
    simp [Function.comp, hb]

theorem countP_map_update (l : List VideoRow) (r0 upd : VideoRow) (p : VideoRow → Bool)
    (hnodup : l.Nodup) (hr0 : r0 ∈ l)
    (hid_unique : ∀ r ∈ l, r.id = r0.id → r = r0)
    (hp0 : p r0 = true) (hpu : p upd = true)
    (hothers : ∀ r ∈ l, r ≠ r0 → p r = false) :
    (l.map (fun r => if r.id == r0.id then upd else r)).countP p = 1 := by
  rw [List.countP_map,
    countP_congr_mem (map_update_pred_eq l r0 upd p hid_unique hp0 hpu)]
  exact countP_eq_one_of_unique hnodup hr0 hp0 hothers

theorem find?_map_update (l : List VideoRow) (r0 upd : VideoRow) (p : VideoRow → Bool)
    (hfind : l.find? p = some r0)
    (hid_unique : ∀ r ∈ l, r.id = r0.id → r = r0)
    (hp0 : p r0 = true) (hpu : p upd = true) :
    (l.map (fun r => if r.id == r0.id then upd else r)).find? p = some upd := by
  rw [List.find?_map,
    find?_congr_mem (map_update_pred_eq l r0 upd p hid_unique hp0 hpu), hfind]
  simp

/-- C6 (amended): the code's upsert deduplicates on the archive (vault)
pair, not on the content identity key: when a row with the given vault
pair exists (under the table's uniqueness invariants and with no URL in
play), the upsert rewrites that row in place with the new mutable fields
and needs_refresh cleared, keeps the row count, and leaves exactly one
row with that vault pair. -/
theorem upsert_video_by_vault_dedup :
    ∀ (st : CatalogStore) (title : List Char) (fid fuid : Option (List Char))
      (c m : Int) (now : List Char) (r0 : VideoRow),
    st.rows.find? (fun r => r.vault_chat_id == some c && r.vault_message_id == some m)
      = some r0 →
    st.rows.Pairwise (fun r s => r.id ≠ s.id) →
    st.rows.Pairwise (fun r s => vaultConflict r s = false) →
    ((upsert_video_by_vault st title fid fuid none c m now).2 = .ok r0.id ∧
     (upsert_video_by_vault st title fid fuid none c m now).1.rows.length
        = st.rows.length ∧
     (upsert_video_by_vault st title fid fuid none c m now).1.rows.countP
        (fun r => r.vault_chat_id == some c && r.vault_message_id == some m) = 1 ∧
     ∃ r1,
       (upsert_video_by_vault st title fid fuid none c m now).1.rows.find?
          (fun r => r.vault_chat_id == some c && r.vault_message_id == some m)
          = some r1 ∧
       r1.title = pyStrip title ∧ r1.file_id = fid ∧ r1.file_unique_id = fuid ∧
       r1.needs_refresh = some 0 ∧ r1.id = r0.id) := by
  intro st title fid fuid c m now r0 hfind hids hpairs
  have hr0mem : r0 ∈ st.rows := List.mem_of_find?_eq_some hfind
  have hpr0 := List.find?_some hfind
  have hnodup : st.rows.Nodup :=
    hids.imp (fun h heq => h (congrArg VideoRow.id heq))
  have hid_unique : ∀ r ∈ st.rows, r.id = r0.id → r = r0 := by
    intro r hr hrid
    by_contra hne
    exact List.Pairwise.forall (fun a b h => h.symm) hids hr hr0mem hne hrid
  have hpr0c : r0.vault_chat_id = some c ∧ r0.vault_message_id = some m := by
    simpa using hpr0
  have hothers : ∀ r ∈ st.rows, r ≠ r0 →
      (r.vault_chat_id == some c && r.vault_message_id == some m) = false := by
    intro r hr hne
    by_contra hT
    have hpT : (r.vault_chat_id == some c && r.vault_message_id == some m) = true :=
      eq_true_of_ne_false hT
    have hprc : r.vault_chat_id = some c ∧ r.vault_message_id = some m := by
      simpa using hpT
    have hvc : vaultConflict r r0 = true := by
      unfold vaultConflict
      rw [hprc.1, hprc.2, hpr0c.1, hpr0c.2]
      simp
    have hfalse : vaultConflict r r0 = false :=
      List.Pairwise.forall
        (fun a b h => by rw [vaultConflict_comm]; exact h) hpairs hr hr0mem hne
    rw [hvc] at hfalse
    exact Bool.noConfusion hfalse
  simp only [upsert_video_by_vault, hfind]
  rw [any_url_check_false st.rows r0.id _ rfl]
  simp only [Bool.false_eq_true, if_false]
  refine ⟨trivial, List.length_map _ _, ?_, ?_⟩
  · exact countP_map_update st.rows r0 _ _ hnodup hr0mem hid_unique
      (by simpa using hpr0c) (by simpa using hpr0c) hothers
  · refine ⟨_, find?_map_update st.rows r0 _ _ hfind hid_unique
      (by simpa using hpr0c) (by simpa using hpr0c), rfl, rfl, rfl, rfl, rfl⟩

/-- C6 witness: upserting with the vault pair of an existing row keeps a
single row with that pair. -/
theorem upsert_video_by_vault_dedup_witness :
    (upsert_video_by_vault vaultCatalog "B".toList none (some "K1".toList) none 1 1 []).1.rows.countP
      (fun r => r.vault_chat_id == some 1 && r.vault_message_id == some 1) = 1 :=
  (upsert_video_by_vault_dedup vaultCatalog "B".toList none (some "K1".toList) 1 1 [] vaultRow1
    (by decide) (by simp [vaultCatalog]) (by simp [vaultCatalog])).2.2.1

/-- C7 counterexample: a valid title (non-empty, at most 120 chars) does
not guarantee an insert — a URL unique-constraint collision makes create
fail with an integrity violation instead, leaving the store unchanged. -/
theorem create_valid_title_integrity_cex :
    (pyStrip "b".toList ≠ [] ∧ (pyStrip "b".toList).length ≤ 120) ∧
    add_video urlCatalog (some "b".toList) none none (some "example.com/x".toList) [] []
      = (urlCatalog, .error .integrityViolation) := by
  exact ⟨by decide, rfl⟩

theorem ensure_entity_spec (st : CatalogStore) (c : List Char) (hwf : CategoriesWF st) :
    CategoriesWF (ensure_entity st c).1 ∧
    (ensure_entity st c).1.rows = st.rows ∧
    (ensure_entity st c).1.next_id = st.next_id ∧
    (ensure_entity st c).1.video_categories = st.video_categories ∧
    category_id_of (ensure_entity st c).1 (pyStrip c) = some (ensure_entity st c).2 ∧
    (∀ nm i, category_id_of st nm = some i →
      category_id_of (ensure_entity st c).1 nm = some i) := by
  unfold ensure_entity
  cases hf : st.categories.find? (fun p => p.2 == pyStrip c) with
  | some p =>
    simp only [hf]
    exact ⟨hwf, trivial, trivial,
      trivial, by simp [category_id_of, hf], fun nm i h => h⟩
  | none =>
    simp only [hf]
    refine ⟨?_, trivial, trivial,
      trivial, ?_, ?_⟩
    · unfold CategoriesWF at hwf ⊢
      rw [List.pairwise_append]
      refine ⟨hwf, List.pairwise_singleton _ _, ?_⟩
      intro q hq q2 hq2
      rw [List.mem_singleton] at hq2
      subst hq2
      have := List.find?_eq_none.mp hf q hq
      simpa using this
    · unfold category_id_of
      rw [List.find?_append, hf]
      simp
    · intro nm i h
      unfold category_id_of at h ⊢
      rw [List.find?_append]
      cases hg : st.categories.find? (fun p => p.2 == nm) with
      | none => rw [hg] at h; simp at h
      | some q => rw [hg] at h; simp_all

theorem set_categories_step_spec (vid : Int) (st : CatalogStore) (c : List Char)
    (hwf : CategoriesWF st) :
    CategoriesWF (set_categories_step vid st c) ∧
    (set_categories_step vid st c).rows = st.rows ∧
    (set_categories_step vid st c).next_id = st.next_id ∧
    (∀ nm i, category_id_of st nm = some i →
      category_id_of (set_categories_step vid st c) nm = some i) ∧
    category_id_of (set_categories_step vid st c) (pyStrip c)
      = some (ensure_entity st c).2 ∧
    (∀ p : Int × Int, p.1 ≠ vid →
      (p ∈ (set_categories_step vid st c).video_categories ↔
        p ∈ st.video_categories)) ∧
    (∀ i : Int, ((vid, i) ∈ (set_categories_step vid st c).video_categories ↔
      (vid, i) ∈ st.video_categories ∨ i = (ensure_entity st c).2)) := by
  obtain ⟨e_wf, e_rows, e_nid, e_vc, e_cat, e_stab⟩ := ensure_entity_spec st c hwf
  unfold set_categories_step
  split
  case isTrue hmem =>
    refine ⟨e_wf, e_rows, e_nid, e_stab, e_cat, ?_, ?_⟩
    · intro p hp
      rw [e_vc]
    · intro i
      rw [e_vc]
      constructor
      · exact fun h => Or.inl h
      · rintro (h | rfl)
        · exact h
        · rw [← e_vc]
          exact hmem
  case isFalse hmem =>
    refine ⟨e_wf, e_rows, e_nid, ?_, ?_, ?_, ?_⟩
    · intro nm i h
      exact e_stab nm i h
    · exact e_cat
    · intro p hp
      simp only [List.mem_append, List.mem_singleton, e_vc]
      constructor
      · rintro (h | rfl)
        · exact h
        · exact absurd rfl hp
      · exact fun h => Or.inl h
    · intro i
      simp only [List.mem_append, List.mem_singleton, e_vc, Prod.mk.injEq]
      constructor
      · rintro (h | ⟨h1, h2⟩)
        · exact Or.inl h
        · exact Or.inr h2
      · rintro (h | rfl)
        · exact Or.inl h
        · simp

theorem set_categories_fold_spec (vid : Int) :
    ∀ (cats : List (List Char)) (st : CatalogStore), CategoriesWF st →
    CategoriesWF (cats.foldl (set_categories_step vid) st) ∧
    (cats.foldl (set_categories_step vid) st).rows = st.rows ∧
    (cats.foldl (set_categories_step vid) st).next_id = st.next_id ∧
    (∀ nm i, category_id_of st nm = some i →
      category_id_of (cats.foldl (set_categories_step vid) st) nm = some i) ∧
    (∀ p : Int × Int, p.1 ≠ vid →
      (p ∈ (cats.foldl (set_categories_step vid) st).video_categories ↔
        p ∈ st.video_categories)) ∧
    (∀ i : Int, ((vid, i) ∈ (cats.foldl (set_categories_step vid) st).video_categories ↔
      (vid, i) ∈ st.video_categories ∨
        ∃ c ∈ cats,
          category_id_of (cats.foldl (set_categories_step vid) st) (pyStrip c)
            = some i)) := by
  intro cats
  induction cats with
  | nil =>
    intro st hwf
    exact ⟨hwf, rfl, rfl, fun nm i h => h, fun p hp => Iff.rfl, fun i => by simp⟩
  | cons c rest ih =>
    intro st hwf
    obtain ⟨s_wf, s_rows, s_nid, s_stab, s_cat, s_nonvid, s_vid⟩ :=
      set_categories_step_spec vid st c hwf
    obtain ⟨f_wf, f_rows, f_nid, f_stab, f_nonvid, f_vid⟩ :=
      ih (set_categories_step vid st c) s_wf
    rw [List.foldl_cons]
    refine ⟨f_wf, by rw [f_rows, s_rows], by rw [f_nid, s_nid],
      fun nm i h => f_stab nm i (s_stab nm i h), ?_, ?_⟩
    · intro p hp
      rw [f_nonvid p hp, s_nonvid p hp]
    · intro i
      rw [f_vid i]
      have hcatl : category_id_of
          (rest.foldl (set_categories_step vid) (set_categories_step vid st c))
          (pyStrip c) = some (ensure_entity st c).2 := f_stab _ _ s_cat
      constructor
      · rintro (h | ⟨c2, hc2, hcat⟩)
        · rcases (s_vid i).mp h with h2 | rfl
          · exact Or.inl h2
          · exact Or.inr ⟨c, List.mem_cons_self c rest, hcatl⟩
        · exact Or.inr ⟨c2, List.mem_cons_of_mem _ hc2, hcat⟩
      · rintro (h | ⟨c2, hc2, hcat⟩)
        · exact Or.inl ((s_vid i).mpr (Or.inl h))
        · rcases List.mem_cons.mp hc2 with hceq | hc3
          · rw [hceq] at hcat
            have he2 : i = (ensure_entity st c).2 := by
              rw [hcatl] at hcat
              injection hcat with hx
              exact hx.symm
            exact Or.inl ((s_vid i).mpr (Or.inr he2))
          · exact Or.inr ⟨c2, hc3, hcat⟩

/-- C7 (amended): an empty or over-120-character title makes create fail
with ValidationError leaving the store unchanged; a valid title inserts
the candidate row and replaces the item's category associations,
provided the insert violates no unique constraint. -/
theorem add_video_spec :
    ∀ (st : CatalogStore) (text : Option (List Char))
      (fid fuid surl : Option (List Char)) (cats : List (List Char)) (now : List Char),
    (pyStrip (text.getD []) = [] ∨ 120 < (pyStrip (text.getD [])).length →
      add_video st text fid fuid surl cats now = (st, .error .validationError)) ∧
    (pyStrip (text.getD []) ≠ [] → (pyStrip (text.getD [])).length ≤ 120 →
      st.rows.all (fun r =>
        !rowConflict r (create_candidate st (pyStrip (text.getD [])) fid fuid surl now))
        = true →
      CategoriesWF st →
      ∃ st2, add_video st text fid fuid surl cats now = (st2, .ok st.next_id) ∧
        st2.rows = st.rows
          ++ [create_candidate st (pyStrip (text.getD [])) fid fuid surl now] ∧
        (∀ p : Int × Int, p.1 ≠ st.next_id →
          (p ∈ st2.video_categories ↔ p ∈ st.video_categories)) ∧
        (∀ i : Int, ((st.next_id, i) ∈ st2.video_categories ↔
          ∃ c ∈ cats, category_id_of st2 (pyStrip c) = some i))) := by
  intro st text fid fuid surl cats now
  constructor
  · rintro (h | h)
    · unfold add_video
      rw [if_pos (by simpa [List.isEmpty_iff] using h)]
    · have hne : pyStrip (text.getD []) ≠ [] := by
        intro heq
        rw [heq] at h
        simp at h
      unfold add_video
      rw [if_neg (by simpa [List.isEmpty_iff] using hne), if_pos h]
  · intro hne hlen hconf hwf
    have hany : st.rows.any (fun r =>
        rowConflict r (create_candidate st (pyStrip (text.getD [])) fid fuid surl now))
        = false := by
      rw [List.any_eq_false]
      intro r hr
      have hr2 := List.all_eq_true.mp hconf r hr
      simpa using hr2
    unfold add_video create_video
    rw [if_neg (by simpa [List.isEmpty_iff] using hne),
      if_neg (by omega), hany]
    simp only [Bool.false_eq_true, if_false]
    obtain ⟨f_wf, f_rows, f_nid, f_stab, f_nonvid, f_vid⟩ :=
      set_categories_fold_spec st.next_id cats
        { st with
          rows := st.rows
            ++ [create_candidate st (pyStrip (text.getD [])) fid fuid surl now]
          next_id := st.next_id + 1
          video_categories :=
            st.video_categories.filter (fun p => !(p.1 == st.next_id)) }
        hwf
    refine ⟨_, rfl, ?_, ?_, ?_⟩
    · rw [show set_categories _ st.next_id cats = _ from rfl]
      exact f_rows
    · intro p hp
      unfold set_categories
      rw [f_nonvid p hp]
      simp only [List.mem_filter]
      constructor
      · exact fun hh => hh.1
      · intro hh
        refine ⟨hh, ?_⟩
        simpa using hp
    · intro i
      unfold set_categories
      rw [f_vid i]
      simp only [List.mem_filter]
      constructor
      · rintro (⟨hmem, hpred⟩ | hex)
        · simp at hpred
        · exact hex
      · exact fun hex => Or.inr hex

/-- C7 witness: a valid title inserts into the empty store. -/
theorem add_video_spec_witness :
    ∃ st2, add_video emptyCatalog (some "hello".toList) none none none ["Easy".toList] []
      = (st2, .ok emptyCatalog.next_id) := by
  obtain ⟨st2, h1, h2, h3, h4⟩ :=
    (add_video_spec emptyCatalog (some "hello".toList) none none none
      ["Easy".toList] []).2
      (by decide) (by decide) (by decide) (by simp [emptyCatalog, CategoriesWF])
  exact ⟨st2, h1⟩
